import Mathlib

/-!
Verification development for the myifc backend (a Bun/Hono + libsql messaging
service).  The relational tables are modelled as lists of rows, each service
function as a pure state transformer over a `Db` value, and WebSocket /
Cloudinary side effects as explicit lists of attempted pushes and media
deletion requests.  Machine integers (`Date.now()` timestamps, durations) are
modelled as `Nat`; JavaScript's truthiness tests on nullable columns are made
explicit where the source relies on them.
-/

deriving instance DecidableEq for Except

set_option maxRecDepth 100000

namespace Myifc

/-- Row of the `users` table (src/config/db.js `createUsersTable`), restricted
to the columns the verified services read. -/
structure UserRow where
  id : Nat
  username : String
  role : String
  is_guest : Bool
  is_online : Bool
  deriving Repr, DecidableEq

/-- Row of the `chat_sessions` table as written by
`createOrGetChatSession` (chat.service.js): the pair is stored sorted,
`expires_at` is creation time plus 24h, and the per-participant
`user1_logged_out` / `user2_logged_out` flags drive message visibility. -/
structure SessionRow where
  id : Nat
  user1_id : Nat
  user2_id : Nat
  created_at : Nat
  expires_at : Nat
  user1_logged_out : Bool
  user2_logged_out : Bool
  is_active : Bool
  deriving Repr, DecidableEq

/-- Row of the `messages` table (direct-chat messages) with the columns used
by chat.service.js: per-participant visibility bits, read flag, reply link
and caption. -/
structure MessageRow where
  id : Nat
  session_id : Nat
  sender_id : Nat
  content : String
  type : String
  created_at : Nat
  is_read : Bool
  visible_to_user1 : Bool
  visible_to_user2 : Bool
  reply_to_message_id : Option Nat
  caption : Option String
  deriving Repr, DecidableEq

/-- Row of the `message_reactions` table; `message_id` carries an
`ON DELETE CASCADE` foreign key to `messages` (db.js
`createMessageReactionsTable`). -/
structure ReactionRow where
  id : Nat
  message_id : Nat
  user_id : Nat
  emoji : String
  created_at : Nat
  deriving Repr, DecidableEq

/-- Row of the `rooms` table as inserted by room.service.js `createRoom`. -/
structure RoomRow where
  id : Nat
  name : String
  creator_id : Nat
  is_admin_room : Bool
  created_at : Nat
  expires_at : Option Nat
  is_active : Bool
  deriving Repr, DecidableEq

/-- Row of the `room_members` table. -/
structure RoomMemberRow where
  id : Nat
  room_id : Nat
  user_id : Nat
  joined_at : Nat
  deriving Repr, DecidableEq

/-- Row of the `room_messages` table; a non-null `recipient_id` marks a
secret message addressed to that user. -/
structure RoomMessageRow where
  id : Nat
  room_id : Nat
  sender_id : Nat
  recipient_id : Option Nat
  content : String
  type : String
  created_at : Nat
  is_read : Bool
  caption : Option String
  reply_to_message_id : Option Nat
  deriving Repr, DecidableEq

/-- Row of the `projects` table (db.js `createProjectsTable`). -/
structure ProjectRow where
  id : Nat
  name : String
  creator_id : Nat
  invite_code : String
  status : String
  created_at : Nat
  deriving Repr, DecidableEq

/-- Row of the `project_members` table. -/
structure ProjectMemberRow where
  id : Nat
  project_id : Nat
  user_id : Nat
  joined_at : Nat
  deriving Repr, DecidableEq

/-- Row of the `project_messages` table (db.js
`createProjectMessagesTable`). -/
structure ProjectMessageRow where
  id : Nat
  project_id : Nat
  sender_id : Nat
  recipient_id : Option Nat
  content : String
  type : String
  created_at : Nat
  is_read : Bool
  caption : Option String
  reply_to_message_id : Option Nat
  deriving Repr, DecidableEq

/-- Row of the `bans` table (db.js `createBansTable`).  `expires_at` is the
nullable absolute expiry timestamp; `duration_days` is the requested length
(null meaning permanent). -/
structure BanRow where
  id : Nat
  user_id : Nat
  banned_by : Nat
  reason : String
  duration_days : Option Nat
  banned_at : Nat
  expires_at : Option Nat
  is_permanent : Bool
  is_active : Bool
  deriving Repr, DecidableEq

/-- The persistent store: one list of rows per table used by the verified
services. -/
structure Db where
  users : List UserRow
  chat_sessions : List SessionRow
  messages : List MessageRow
  message_reactions : List ReactionRow
  rooms : List RoomRow
  room_members : List RoomMemberRow
  room_messages : List RoomMessageRow
  projects : List ProjectRow
  project_members : List ProjectMemberRow
  project_messages : List ProjectMessageRow
  bans : List BanRow
  deriving Repr, DecidableEq

/-- An attempted WebSocket push (`sendToUser` in websocket.service.js):
delivery is best effort, so only the attempt and its target are recorded. -/
structure Push where
  target : Nat
  event : String
  message_id : Option Nat
  deriving Repr, DecidableEq

/-- A `deleteMultipleMedia(publicIds, kind)` call issued to the Cloudinary
collaborator (utils/mediaProcessor.js). -/
structure MediaRequest where
  publicIds : List String
  kind : String
  deriving Repr, DecidableEq

/-- Media message types treated as attachments throughout chat.service.js
(`['image', 'gif', 'audio']`). -/
def mediaTypes : List String := ["image", "gif", "audio"]

/-- Model of JavaScript `String.prototype.startsWith` via character lists (the
built-in `String.startsWith` does not reduce in the kernel). -/
def jsStartsWith (s pre : String) : Bool :=
  s.toList.take pre.toList.length == pre.toList

/-- Model of `str.split(sep)` on character lists. -/
def splitChar (sep : Char) : List Char → List (List Char)
  | [] => [[]]
  | c :: cs =>
    let rest := splitChar sep cs
    if c == sep then [] :: rest
    else
      match rest with
      | [] => [[c]]
      | r :: rs => (c :: r) :: rs

/-- Model of `publicIdWithFormat.substring(0, publicIdWithFormat.lastIndexOf('.'))`:
JavaScript returns the empty string when there is no dot (lastIndexOf = -1). -/
def dropAfterLastDot (cs : List Char) : List Char :=
  match cs.reverse.findIdx? (fun c => c == '.') with
  | none => []
  | some i => cs.take (cs.length - 1 - i)

/-- Model of media.service.js `isPublicId`: content that does not start with
http:// or https:// is already a public id. -/
def isPublicId (content : String) : Bool :=
  !(jsStartsWith content "http://") && !(jsStartsWith content "https://")

/-- Model of media.service.js `extractPublicIdFromUrl`: split the URL on '/',
find the 'upload' segment, join everything after 'upload/v{version}/' and
strip the file extension; any failure is caught and rethrown as a typed
error. -/
def extractPublicIdFromUrl (url : String) : Except String String :=
  let urlParts := splitChar '/' url.toList
  match urlParts.findIdx? (fun part => part == "upload".toList) with
  | none => .error "Failed to extract public_id from URL"
  | some uploadIndex =>
      let publicIdWithFormat :=
        (List.intersperse ['/'] (urlParts.drop (uploadIndex + 2))).flatten
      .ok (dropAfterLastDot publicIdWithFormat).asString

/-- Content stored for a message (chat.service.js `sendMessage` lines
105-112): media content that is a URL is converted to its Cloudinary public
id before the INSERT. -/
def contentToStore (content : String) (type : String) : Except String String :=
  if mediaTypes.contains type then
    if !(isPublicId content) then extractPublicIdFromUrl content
    else .ok content
  else .ok content

/-- Lookup modelling `SELECT * FROM users WHERE id = ?` + `rows[0]`. -/
def userById (st : Db) (uid : Nat) : Option UserRow :=
  (st.users.filter (fun u => u.id == uid)).head?

/-- Lookup modelling `SELECT * FROM chat_sessions WHERE id = ? AND is_active = 1`. -/
def findActiveSession (st : Db) (session_id : Nat) : Option SessionRow :=
  (st.chat_sessions.filter (fun s => s.id == session_id && s.is_active)).head?

/-- Lookup of a session row by primary key. -/
def sessionById (st : Db) (session_id : Nat) : Option SessionRow :=
  (st.chat_sessions.filter (fun s => s.id == session_id)).head?

/-- Result of `createOrGetChatSession`: the (possibly updated) store plus the
returned session or the raised error. -/
structure CreateSessionOutcome where
  st : Db
  result : Except String SessionRow
  deriving Repr, DecidableEq

/-- Model of chat.service.js `createOrGetChatSession(user1_id, user2_id)`:
only the *second* argument is checked for existence and online status; the
pair is then sorted, an existing active session for the sorted pair is
returned if present, else a fresh row with a 24h TTL is inserted.
`now` models `Date.now()` and `sessionId` the generated id. -/
def createOrGetChatSession (st : Db) (now sessionId : Nat)
    (user1_id user2_id : Nat) : CreateSessionOutcome :=
  match userById st user2_id with
  | none => ⟨st, .error "User not found"⟩
  | some other =>
    if !other.is_online then
      ⟨st, .error "User is offline. Cannot send message."⟩
    else
      let userId1 := min user1_id user2_id
      let userId2 := max user1_id user2_id
      match (st.chat_sessions.filter (fun s =>
          s.user1_id == userId1 && s.user2_id == userId2 && s.is_active)).head? with
      | some existing => ⟨st, .ok existing⟩
      | none =>
          let expiresAt := now + 24 * 60 * 60 * 1000
          let srow : SessionRow :=
            ⟨sessionId, userId1, userId2, now, expiresAt, false, false, true⟩
          ⟨{ st with chat_sessions := srow :: st.chat_sessions }, .ok srow⟩

/-- Push computed by websocket.service.js `broadcastNewMessage`: the target is
the participant of the session that is not the message's sender. -/
def broadcastNewMessage (session : SessionRow) (msg : MessageRow) : Push :=
  { target := if session.user1_id == msg.sender_id then session.user2_id
              else session.user1_id,
    event := "new_message",
    message_id := some msg.id }

/-- Result of `sendMessage`: final store, returned message row or raised
error, and the list of push attempts made. -/
structure SendOutcome where
  st : Db
  result : Except String MessageRow
  pushes : List Push
  deriving Repr, DecidableEq

/-- Model of chat.service.js `sendMessage` (lines 66-193).  All typed errors
are raised before the INSERT; after the INSERT the sender's own logged-out
flag is reset and exactly one push to the other participant is attempted.
The read-only queries enriching the returned payload (sender username,
reply preview) do not touch the store and are omitted. -/
def sendMessage (st : Db) (now messageId : Nat) (session_id sender_id : Nat)
    (content type : String) (reply_to_message_id : Option Nat)
    (caption : Option String) : SendOutcome :=
  match findActiveSession st session_id with
  | none => ⟨st, .error "Chat session not found or expired", []⟩
  | some session =>
    let isUser1 := session.user1_id == sender_id
    let isUser2 := session.user2_id == sender_id
    if !isUser1 && !isUser2 then
      ⟨st, .error "Sender is not part of this chat session", []⟩
    else
      let otherUserId := if isUser1 then session.user2_id else session.user1_id
      match userById st otherUserId with
      | none => ⟨st, .error "User is offline. Cannot send message.", []⟩
      | some other =>
        if !other.is_online then
          ⟨st, .error "User is offline. Cannot send message.", []⟩
        else
          let visibleToUser1 := if isUser1 then true else !session.user1_logged_out
          let visibleToUser2 := if isUser2 then true else !session.user2_logged_out
          match contentToStore content type with
          | .error e => ⟨st, .error e, []⟩
          | .ok stored =>
            let msg : MessageRow :=
              ⟨messageId, session_id, sender_id, stored, type, now, false,
               visibleToUser1, visibleToUser2, reply_to_message_id, caption⟩
            let st1 := { st with messages := msg :: st.messages }
            let st2 :=
              if isUser1 && session.user1_logged_out then
                { st1 with chat_sessions := st1.chat_sessions.map (fun s =>
                    if s.id == session_id then { s with user1_logged_out := false }
                    else s) }
              else st1
            let st3 :=
              if isUser2 && session.user2_logged_out then
                { st2 with chat_sessions := st2.chat_sessions.map (fun s =>
                    if s.id == session_id then { s with user2_logged_out := false }
                    else s) }
              else st2
            ⟨st3, .ok msg, [broadcastNewMessage session msg]⟩

/-- Model of chat.service.js `markMessagesAsRead(session_id, user_id)`: no
session or participant check is performed; unread messages of the session
not sent by `user_id` are flipped to read, and a `message_read` push is
attempted to each such message's sender. -/
def markMessagesAsRead (st : Db) (session_id user_id : Nat) :
    Db × List Push :=
  let unread := st.messages.filter (fun m =>
    m.session_id == session_id && m.sender_id != user_id && !m.is_read)
  let st1 := { st with messages := st.messages.map (fun m =>
    if m.session_id == session_id && m.sender_id != user_id && !m.is_read then
      { m with is_read := true }
    else m) }
  (st1, unread.map (fun m =>
    { target := m.sender_id, event := "message_read", message_id := some m.id }))

/-- Cascade semantics of `DELETE FROM chat_sessions WHERE <p>` under the
schema's foreign keys (db.js): deleting a session deletes its messages
(`messages.session_id ON DELETE CASCADE`), and deleting a message deletes
its reactions (`message_reactions.message_id ON DELETE CASCADE`). -/
def deleteSessionsWhere (st : Db) (p : SessionRow → Bool) : Db :=
  let deadMsg : MessageRow → Bool := fun m =>
    st.chat_sessions.any (fun s => p s && s.id == m.session_id)
  { st with
    chat_sessions := st.chat_sessions.filter (fun s => !(p s)),
    messages := st.messages.filter (fun m => !(deadMsg m)),
    message_reactions := st.message_reactions.filter (fun r =>
      !(st.messages.any (fun m => deadMsg m && m.id == r.message_id))) }

/-- Cascade semantics of `DELETE FROM messages WHERE <p>`: reactions of the
deleted messages are removed with them. -/
def deleteMessagesWhere (st : Db) (p : MessageRow → Bool) : Db :=
  { st with
    messages := st.messages.filter (fun m => !(p m)),
    message_reactions := st.message_reactions.filter (fun r =>
      !(st.messages.any (fun m => p m && m.id == r.message_id))) }

/-- Visibility bit of a message for one side of a session: the SQL
`visibilityField` selection (`visible_to_user1` when the user is user1,
else `visible_to_user2`). -/
def visibleTo (isUser1 : Bool) (m : MessageRow) : Bool :=
  if isUser1 then m.visible_to_user1 else m.visible_to_user2

/-- The UPDATE clearing one side's visibility bit of a message. -/
def hideFrom (isUser1 : Bool) (m : MessageRow) : MessageRow :=
  if isUser1 then { m with visible_to_user1 := false }
  else { m with visible_to_user2 := false }

/-- The fetched session row's logged-out flag of the *other* participant. -/
def otherLoggedOutFlag (isUser1 : Bool) (session : SessionRow) : Bool :=
  if isUser1 then session.user2_logged_out else session.user1_logged_out

/-- Per-session body of the loop in chat.service.js `handleUserLogout`
(lines 515-570): snapshot the media messages still visible to the user,
hide all of the session's messages from the user, and if the *other*
participant had already logged out, request Cloudinary deletion of the
snapshotted media (grouped audio vs image) and delete the session row. -/
def logoutSessionStep (user_id : Nat) (acc : Db × List MediaRequest)
    (session : SessionRow) : Db × List MediaRequest :=
  let st := acc.1
  let reqs := acc.2
  let isUser1 := session.user1_id == user_id
  let mediaMessages := st.messages.filter (fun m =>
    m.session_id == session.id && visibleTo isUser1 m
      && mediaTypes.contains m.type)
  let st1 := { st with messages := st.messages.map (fun m =>
    if m.session_id == session.id then hideFrom isUser1 m else m) }
  if otherLoggedOutFlag isUser1 session then
    let audioIds := (mediaMessages.filter (fun m => m.type == "audio")).map
      (fun m => m.content)
    let imageIds := (mediaMessages.filter (fun m => !(m.type == "audio"))).map
      (fun m => m.content)
    let reqs1 := reqs
      ++ (if imageIds.isEmpty then [] else [MediaRequest.mk imageIds "image"])
      ++ (if audioIds.isEmpty then [] else [MediaRequest.mk audioIds "audio"])
    (deleteSessionsWhere st1 (fun s => s.id == session.id), reqs1)
  else (st1, reqs)

/-- Model of chat.service.js `handleUserLogout(user_id)` (lines 507-571):
iterate over the user's active sessions as fetched up front, applying
`logoutSessionStep` to each. -/
def handleUserLogout (st : Db) (user_id : Nat) : Db × List MediaRequest :=
  let sessions := st.chat_sessions.filter (fun s =>
    (s.user1_id == user_id || s.user2_id == user_id) && s.is_active)
  sessions.foldl (logoutSessionStep user_id) (st, [])

/-- Model of chat.service.js `cleanupOldChats` (lines 574-625): request
Cloudinary deletion for media messages older than 24h, delete all messages
older than 24h, then delete sessions whose `expires_at` has passed (their
remaining messages and reactions go with them by cascade). -/
def cleanupOldChats (st : Db) (now : Nat) : Db × List MediaRequest :=
  let twentyFourHoursAgo := now - 24 * 60 * 60 * 1000
  let oldMedia := st.messages.filter (fun m =>
    m.created_at < twentyFourHoursAgo && mediaTypes.contains m.type)
  let audioIds := (oldMedia.filter (fun m => m.type == "audio")).map
    (fun m => m.content)
  let imageIds := (oldMedia.filter (fun m => !(m.type == "audio"))).map
    (fun m => m.content)
  let reqs :=
    (if imageIds.isEmpty then [] else [MediaRequest.mk imageIds "image"])
      ++ (if audioIds.isEmpty then [] else [MediaRequest.mk audioIds "audio"])
  let st1 := deleteMessagesWhere st (fun m => m.created_at < twentyFourHoursAgo)
  let st2 := deleteSessionsWhere st1 (fun s => s.expires_at < now)
  (st2, reqs)

/-- Modelled from the spec: the implementations of the room presence
broadcast helpers (`broadcastRoomPresence` / `broadcastProjectPresence`)
are imported by room.service.js and the project service but are not part of
the repository sources; per spec sections 4.2/4.3 a presence event fans out
by resolving the membership list and attempting one push per member other
than the acting user. -/
def broadcastRoomPresence (st : Db) (roomId actorId : Nat) (event : String) :
    List Push :=
  (st.room_members.filter (fun m =>
    m.room_id == roomId && !(m.user_id == actorId))).map (fun m =>
      { target := m.user_id, event := event, message_id := none })

/-- Modelled from the spec: project-side presence broadcast, identical fan-out
over `project_members`. -/
def broadcastProjectPresence (st : Db) (projectId actorId : Nat)
    (event : String) : List Push :=
  (st.project_members.filter (fun m =>
    m.project_id == projectId && !(m.user_id == actorId))).map (fun m =>
      { target := m.user_id, event := event, message_id := none })

/-- Model of room.service.js `leaveRoom(roomId, userId)` (lines 506-531):
no creator or membership check is performed; the membership row is deleted
and, when the user row exists, a presence event is broadcast. -/
def leaveRoom (st : Db) (roomId userId : Nat) : Db × List Push :=
  let userRow := userById st userId
  let st1 := { st with room_members := st.room_members.filter (fun m =>
    !(m.room_id == roomId && m.user_id == userId)) }
  match userRow with
  | some u => (st1, broadcastRoomPresence st1 roomId u.id "left")
  | none => (st1, [])

/-- Lookup modelling the project service's `getProjectById`: the SQL joins
`users` on the creator, so a project whose creator row is missing is
reported as not found. -/
def getProjectById (st : Db) (projectId : Nat) : Option ProjectRow :=
  (st.projects.filter (fun p =>
    p.id == projectId && st.users.any (fun u => u.id == p.creator_id))).head?

/-- Model of the project service's `leaveProject(projectId, userId)`
(websocket.service.js source block, lines 233-265): the creator may not
leave; otherwise the membership row is deleted and a presence event is
broadcast. -/
def leaveProject (st : Db) (projectId userId : Nat) :
    Db × Except String Unit × List Push :=
  match getProjectById st projectId with
  | none => (st, .error "Project not found", [])
  | some project =>
    if project.creator_id == userId then
      (st, .error "Project creator cannot leave. Archive the project instead.", [])
    else
      let st1 := { st with project_members := st.project_members.filter (fun m =>
        !(m.project_id == projectId && m.user_id == userId)) }
      match userById st userId with
      | some u => (st1, .ok (), broadcastProjectPresence st1 projectId u.id "left")
      | none => (st1, .ok (), [])

/-- Model of room.service.js `sendRoomMessage` (lines 534-653): membership is
required; a non-null recipient forces the type to 'secret'; the row is then
inserted.  No retention trim of any kind runs after the INSERT.  The
broadcast of the new message is a fan-out side effect that does not touch
the store and is omitted here. -/
def sendRoomMessage (st : Db) (now messageId : Nat) (roomId senderId : Nat)
    (content type0 : String) (replyToMessageId : Option Nat)
    (caption : Option String) (recipientId : Option Nat) :
    Db × Except String RoomMessageRow :=
  if (st.room_members.filter (fun m =>
      m.room_id == roomId && m.user_id == senderId)).isEmpty then
    (st, .error "You must join the room to send messages")
  else
    let type := match recipientId with
      | some _ => "secret"
      | none => type0
    let msg : RoomMessageRow :=
      ⟨messageId, roomId, senderId, recipientId, content, type, now, false,
       caption, replyToMessageId⟩
    ({ st with room_messages := msg :: st.room_messages }, .ok msg)

/-- Count of a room's stored messages
(`SELECT COUNT(*) FROM room_messages WHERE room_id = ?`). -/
def roomMessageCount (st : Db) (roomId : Nat) : Nat :=
  (st.room_messages.filter (fun m => m.room_id == roomId)).length

/-- Model of room.service.js `getRoomMessages(roomId, userId, limit)` (lines
656-690): select the room's messages joined with their senders, newest
first, apply the SQL LIMIT, then filter out secret messages not addressed
to or sent by the requester, and return in ascending order. -/
def getRoomMessages (st : Db) (roomId userId : Nat) (limit : Nat) :
    List RoomMessageRow :=
  let rows := st.room_messages.filter (fun rm =>
    rm.room_id == roomId && st.users.any (fun u => u.id == rm.sender_id))
  let sorted := rows.insertionSort (fun a b => b.created_at ≤ a.created_at)
  let limited := sorted.take limit
  let filtered := limited.filter (fun msg =>
    if msg.type == "secret" then
      msg.sender_id == userId || msg.recipient_id == some userId
    else true)
  filtered.reverse

/-- Model of the project service's `getProjectMessages(projectId, userId,
limit, offset)` (websocket.service.js source block, lines 390-457): same
shape as `getRoomMessages` with an OFFSET; the reaction attachment step is
read-only and omitted. -/
def getProjectMessages (st : Db) (projectId userId : Nat)
    (limit offset : Nat) : List ProjectMessageRow :=
  let rows := st.project_messages.filter (fun pm =>
    pm.project_id == projectId && st.users.any (fun u => u.id == pm.sender_id))
  let sorted := rows.insertionSort (fun a b => b.created_at ≤ a.created_at)
  let limited := (sorted.drop offset).take limit
  let filtered := limited.filter (fun msg =>
    if msg.type == "secret" then
      msg.sender_id == userId || msg.recipient_id == some userId
    else true)
  filtered.reverse

/-- Model of admin.service.js `banUser(userId, bannedBy, durationDays,
reason)` (lines 101-192): permission checks, expiry computation (null or 0
duration meaning a permanent, admin-only ban), deactivation of the user's
previous active bans, insertion of the new active ban, role change to
'banned', closing of the user's chat sessions and removal from all rooms. -/
def banUser (st : Db) (now banId : Nat) (userId bannedBy : Nat)
    (durationDays : Option Nat) (reason : String) :
    Db × Except String BanRow :=
  match userById st bannedBy with
  | none => (st, .error "Banner not found")
  | some banner =>
    match userById st userId with
    | none => (st, .error "User not found")
    | some target =>
      if banner.role == "moderator"
          && !(target.role == "user" || target.role == "guest") then
        (st, .error "Moderators cannot ban admins or other moderators")
      else if banner.role == "moderator"
          && !(durationDays == some 1 || durationDays == some 3) then
        (st, .error "Moderators can only ban for 1 or 3 days")
      else
        let permanentRequested := durationDays == none || durationDays == some 0
        if permanentRequested && !(banner.role == "admin") then
          (st, .error "Only admins can issue permanent bans")
        else
          let expiresAt : Option Nat :=
            if permanentRequested then none
            else durationDays.map (fun d => now + d * 24 * 60 * 60 * 1000)
          let ban : BanRow :=
            ⟨banId, userId, bannedBy, reason, durationDays, now, expiresAt,
             permanentRequested, true⟩
          let stDeact : Db := { st with bans := st.bans.map (fun b =>
            if b.user_id == userId && b.is_active then { b with is_active := false }
            else b) }
          let st1 : Db := { stDeact with bans := ban :: stDeact.bans }
          let st2 : Db := { st1 with users := st1.users.map (fun u =>
            if u.id == userId then { u with role := "banned", is_online := false }
            else u) }
          let st3 : Db := { st2 with chat_sessions := st2.chat_sessions.map (fun s =>
            if (s.user1_id == userId || s.user2_id == userId) && s.is_active then
              { s with is_active := false }
            else s) }
          let st4 : Db := { st3 with room_members := st3.room_members.filter (fun m =>
            !(m.user_id == userId)) }
          (st4, .ok ban)

/-- JavaScript truthiness of the nullable `expires_at` column as used in
`ban.expires_at && ban.expires_at < now`: null and 0 are falsy. -/
def jsTruthyTime : Option Nat → Bool
  | none => false
  | some e => !(e == 0)

/-- Lookup modelling the middleware's
`SELECT * FROM bans WHERE user_id = ? AND is_active = 1 ORDER BY banned_at DESC LIMIT 1`. -/
def latestActiveBan (st : Db) (uid : Nat) : Option BanRow :=
  ((st.bans.filter (fun b => b.user_id == uid && b.is_active)).insertionSort
    (fun a b => b.banned_at ≤ a.banned_at)).head?

/-- Outcome of the authenticated-request ban check. -/
inductive AuthOutcome where
  | proceed (user : UserRow)
  | bannedReject
  | unauthorized
  deriving Repr, DecidableEq

/-- Model of middleware/auth.js `authMiddleware` (lines 20-57), from the
point where the token has been verified and carries `uid`: fetch the user;
if their role is 'banned', fetch the latest active ban; a non-permanent ban
whose `expires_at` is truthy and in the past is lazily lifted (role reset
to 'user', ban deactivated) and the request proceeds; otherwise the request
is rejected.  A banned role with no active ban row proceeds unchanged. -/
def authMiddlewareBanCheck (st : Db) (now uid : Nat) : Db × AuthOutcome :=
  match userById st uid with
  | none => (st, .unauthorized)
  | some user =>
    if user.role == "banned" then
      match latestActiveBan st uid with
      | some ban =>
        if !ban.is_permanent && jsTruthyTime ban.expires_at
            && ban.expires_at.getD 0 < now then
          let st1 := { st with
            users := st.users.map (fun u =>
              if u.id == uid then { u with role := "user" } else u),
            bans := st.bans.map (fun b =>
              if b.id == ban.id then { b with is_active := false } else b) }
          (st1, .proceed { user with role := "user" })
        else (st, .bannedReject)
      | none => (st, .proceed user)
    else (st, .proceed user)

/-- Active-ban count of one user. -/
def activeBanCount (st : Db) (uid : Nat) : Nat :=
  (st.bans.filter (fun b => b.user_id == uid && b.is_active)).length

/-- Invariant: at most one active ban per user. -/
def atMostOneActiveBan (st : Db) : Prop :=
  ∀ uid : Nat, activeBanCount st uid ≤ 1

/-- C6: for every room or project message stored with a non-null secret
recipient R, the fetch operations (`getRoomMessages` / `getProjectMessages`)
never include that message in results returned to any user other than the
message's sender and R; moreover any message persisted by `sendRoomMessage`
with a non-null recipient is stored with type 'secret' and that recipient. -/
theorem secret_messages_hidden_from_third_parties
    (st : Db) (roomId projectId userId limit offset : Nat) :
    (∀ m : RoomMessageRow, m.type = "secret" → ∀ R, m.recipient_id = some R →
      userId ≠ m.sender_id → userId ≠ R →
      m ∉ getRoomMessages st roomId userId limit) ∧
    (∀ m : ProjectMessageRow, m.type = "secret" → ∀ R, m.recipient_id = some R →
      userId ≠ m.sender_id → userId ≠ R →
      m ∉ getProjectMessages st projectId userId limit offset) ∧
    (∀ now messageId senderId content type0 reply cap R st' msg,
      sendRoomMessage st now messageId roomId senderId content type0 reply cap
        (some R) = (st', .ok msg) →
      msg.type = "secret" ∧ msg.recipient_id = some R) := by
  refine ⟨?_, ?_, ?_⟩
  · intro m hty R hrec hs hr hmem
    rw [getRoomMessages, List.mem_reverse] at hmem
    have hpred := (List.mem_filter.mp hmem).2
    simp only [hty, hrec] at hpred
    simp only [beq_self_eq_true, if_true, Bool.or_eq_true, beq_iff_eq,
      Option.some.injEq] at hpred
    rcases hpred with h | h
    · exact hs h.symm
    · exact hr h.symm
  · intro m hty R hrec hs hr hmem
    rw [getProjectMessages, List.mem_reverse] at hmem
    have hpred := (List.mem_filter.mp hmem).2
    simp only [hty, hrec] at hpred
    simp only [beq_self_eq_true, if_true, Bool.or_eq_true, beq_iff_eq,
      Option.some.injEq] at hpred
    rcases hpred with h | h
    · exact hs h.symm
    · exact hr h.symm
  · intro now messageId senderId content type0 reply cap R st' msg h
    simp only [sendRoomMessage] at h
    rw [Prod.mk.injEq] at h
    split at h
    · exact absurd h.2 (by simp)
    · obtain ⟨-, hsnd⟩ := h
      simp only [Except.ok.injEq] at hsnd
      subst hsnd
      exact ⟨rfl, rfl⟩

/-- Concrete store for the C6 witness: room 1 contains a secret message from
user 1 to user 2, and user 3 is a member who should not see it. -/
def stC6 : Db :=
  { users := [⟨1, "a", "user", false, true⟩, ⟨2, "b", "user", false, true⟩,
      ⟨3, "c", "user", false, true⟩],
    chat_sessions := [], messages := [], message_reactions := [],
    rooms := [⟨1, "r", 1, false, 0, none, true⟩],
    room_members := [⟨50, 1, 1, 0⟩, ⟨51, 1, 2, 0⟩, ⟨52, 1, 3, 0⟩],
    room_messages := [⟨100, 1, 1, some 2, "shh", "secret", 5, false, none, none⟩],
    projects := [], project_members := [], project_messages := [], bans := [] }

/-- Witness for C6 evaluated on `stC6`: user 3 does not receive the secret
message addressed to user 2. -/
theorem secret_messages_hidden_from_third_parties_witness :
    (⟨100, 1, 1, some 2, "shh", "secret", 5, false, none, none⟩ : RoomMessageRow)
      ∉ getRoomMessages stC6 1 3 100 :=
  (secret_messages_hidden_from_third_parties stC6 1 1 3 100 0).1
    ⟨100, 1, 1, some 2, "shh", "secret", 5, false, none, none⟩ rfl 2 rfl
    (by decide) (by decide)

/-- C10: `markMessagesAsRead` performs no session or participant check: for
every store and every user id — participant of the session or not — the call
returns successfully, every message of the session not sent by that user is
read afterwards, and one `message_read` push per previously-unread such
message is attempted, targeted at that message's sender. -/
theorem markMessagesAsRead_no_participant_check
    (st : Db) (session_id user_id : Nat) :
    (∀ m ∈ (markMessagesAsRead st session_id user_id).1.messages,
      m.session_id = session_id → m.sender_id ≠ user_id → m.is_read = true) ∧
    (markMessagesAsRead st session_id user_id).2 =
      (st.messages.filter (fun m =>
        m.session_id == session_id && m.sender_id != user_id && !m.is_read)).map
        (fun m => { target := m.sender_id, event := "message_read",
                    message_id := some m.id }) ∧
    (markMessagesAsRead st session_id user_id).1.messages.length =
      st.messages.length := by
  refine ⟨?_, rfl, by simp [markMessagesAsRead]⟩
  intro m hm hsid hsender
  rw [markMessagesAsRead] at hm
  simp only [List.mem_map] at hm
  obtain ⟨x, hx, hfx⟩ := hm
  by_cases hc : (x.session_id == session_id && x.sender_id != user_id
      && !x.is_read) = true
  · rw [if_pos hc] at hfx
    rw [← hfx]
  · rw [if_neg hc] at hfx
    subst hfx
    simp only [Bool.and_eq_true, beq_iff_eq, bne_iff_ne, Bool.not_eq_true',
      not_and, Bool.not_eq_false] at hc
    exact hc ⟨hsid, hsender⟩

/-- Concrete store for the C10 witness: session 10 belongs to users 1 and 2,
with one unread message from user 1; user 7 is not a participant. -/
def stC10 : Db :=
  { users := [⟨1, "a", "user", false, true⟩, ⟨2, "b", "user", false, true⟩],
    chat_sessions := [⟨10, 1, 2, 0, 86400000, false, false, true⟩],
    messages := [⟨100, 10, 1, "hi", "text", 5, false, true, true, none, none⟩],
    message_reactions := [], rooms := [], room_members := [],
    room_messages := [], projects := [], project_members := [],
    project_messages := [], bans := [] }

/-- Witness for C10 evaluated on `stC10` with non-participant user 7: the
message from user 1 is marked read and its sender receives the read
receipt push. -/
theorem markMessagesAsRead_no_participant_check_witness :
    (∀ m ∈ (markMessagesAsRead stC10 10 7).1.messages,
      m.session_id = 10 → m.sender_id ≠ 7 → m.is_read = true) ∧
    (markMessagesAsRead stC10 10 7).2 =
      [{ target := 1, event := "message_read", message_id := some 100 }] := by
  refine ⟨(markMessagesAsRead_no_participant_check stC10 10 7).1, ?_⟩
  rw [(markMessagesAsRead_no_participant_check stC10 10 7).2.1]
  decide

/-- C4 (amended): `sendRoomMessage` runs no retention trim after persisting:
a successful send appends exactly one row, so the room's message count
strictly grows — in particular a capped room already holding 200 messages
holds 201 afterwards. -/
theorem sendRoomMessage_appends_without_trim
    (st : Db) (now messageId roomId senderId : Nat) (content type0 : String)
    (reply : Option Nat) (cap : Option String) (recip : Option Nat)
    (st' : Db) (msg : RoomMessageRow)
    (h : sendRoomMessage st now messageId roomId senderId content type0
      reply cap recip = (st', .ok msg)) :
    st'.room_messages = msg :: st.room_messages ∧ msg.room_id = roomId ∧
    roomMessageCount st' roomId = roomMessageCount st roomId + 1 := by
  simp only [sendRoomMessage] at h
  rw [Prod.mk.injEq] at h
  split at h
  · exact absurd h.2 (by simp)
  · obtain ⟨hfst, hsnd⟩ := h
    simp only [Except.ok.injEq] at hsnd
    subst hsnd
    subst hfst
    refine ⟨rfl, rfl, ?_⟩
    simp [roomMessageCount]

/-- One of the 200 pre-existing messages of room 1 in the C4 counterexample
store. -/
def roomMsgC4 (i : Nat) : RoomMessageRow :=
  ⟨i, 1, 1, none, "m", "text", i, false, none, none⟩

/-- Concrete store for the C4 counterexample: a non-permanent room holding
exactly 200 messages, with user 1 as a member. -/
def stC4 : Db :=
  { users := [⟨1, "u", "user", false, true⟩],
    chat_sessions := [], messages := [], message_reactions := [],
    rooms := [⟨1, "r", 1, false, 0, none, true⟩],
    room_members := [⟨10, 1, 1, 0⟩],
    room_messages := (List.range 200).map roomMsgC4,
    projects := [], project_members := [], project_messages := [], bans := [] }

/-- Counterexample refuting C4: room 1 of `stC4` is non-permanent and holds
exactly 200 messages, yet after a completed `sendRoomMessage` call it holds
201 — no retention trim deletes the overflow. -/
theorem sendRoomMessage_cap_violated :
    (stC4.rooms.all (fun r => !r.is_admin_room)) = true ∧
    roomMessageCount stC4 1 = 200 ∧
    ∃ st' msg,
      sendRoomMessage stC4 1000 1000 1 1 "hi" "text" none none none =
        (st', .ok msg) ∧
      roomMessageCount st' 1 = 201 := by
  refine ⟨by decide, by decide,
    { stC4 with room_messages :=
        ⟨1000, 1, 1, none, "hi", "text", 1000, false, none, none⟩ ::
          stC4.room_messages },
    ⟨1000, 1, 1, none, "hi", "text", 1000, false, none, none⟩, by decide, by decide⟩

/-- Witness for the amended C4 theorem: the concrete send on `stC4` appends
exactly one message. -/
theorem sendRoomMessage_appends_without_trim_witness :
    roomMessageCount
      (sendRoomMessage stC4 1000 1000 1 1 "hi" "text" none none none).1 1 =
    roomMessageCount stC4 1 + 1 :=
  (sendRoomMessage_appends_without_trim stC4 1000 1000 1 1 "hi" "text"
    none none none _ _ rfl).2.2

/-- Concrete store for the C5 counterexample: user 1 is online, user 2 is
offline; both exist. -/
def stC5 : Db :=
  { users := [⟨1, "a", "user", false, true⟩, ⟨2, "b", "user", false, false⟩],
    chat_sessions := [], messages := [], message_reactions := [], rooms := [],
    room_members := [], room_messages := [], projects := [],
    project_members := [], project_messages := [], bans := [] }

/-- Counterexample refuting C5: on `stC5` the call order (1,2) fails because
user 2 — the second argument — is offline, while the order (2,1) succeeds,
so the two argument orders do not succeed or fail identically. -/
theorem createOrGetChatSession_order_asymmetry :
    (createOrGetChatSession stC5 0 99 1 2).result =
      .error "User is offline. Cannot send message." ∧
    (createOrGetChatSession stC5 0 99 2 1).result =
      .ok ⟨99, 1, 2, 0, 86400000, false, false, true⟩ := by
  decide

/-- C5 (amended): the pair is canonicalised, so when the peer of each call
order exists and is online the two orders return literally identical
outcomes, and when an active conversation for the canonical pair already
exists it is returned unchanged instead of creating a second one; but the
existence/online check applies only to the second argument, so the two
orders may differ in success when exactly one side is offline or missing. -/
theorem createOrGetChatSession_canonical_idempotent
    (st : Db) (now sid a b : Nat) :
    (∀ ua ub, userById st a = some ua → userById st b = some ub →
      ua.is_online = true → ub.is_online = true →
      createOrGetChatSession st now sid a b =
        createOrGetChatSession st now sid b a) ∧
    (∀ ub s, userById st b = some ub → ub.is_online = true →
      (st.chat_sessions.filter (fun x =>
        x.user1_id == min a b && x.user2_id == max a b && x.is_active)).head? =
          some s →
      createOrGetChatSession st now sid a b = ⟨st, .ok s⟩) := by
  constructor
  · intro ua ub ha hb hoa hob
    simp only [createOrGetChatSession, ha, hb, hoa, hob, Bool.not_true,
      Bool.false_eq_true, if_false]
    rw [Nat.min_comm b a, Nat.max_comm b a]
  · intro ub s hb hob hex
    simp only [createOrGetChatSession, hb, hob, Bool.not_true,
      Bool.false_eq_true, if_false]
    rw [hex]

/-- Concrete store for the C5 witness: both users online, with an existing
active canonical session for the pair. -/
def stC5b : Db :=
  { users := [⟨1, "a", "user", false, true⟩, ⟨2, "b", "user", false, true⟩],
    chat_sessions := [⟨42, 1, 2, 0, 86400000, false, false, true⟩],
    messages := [], message_reactions := [], rooms := [], room_members := [],
    room_messages := [], projects := [], project_members := [],
    project_messages := [], bans := [] }

/-- Witness for the amended C5 theorem on `stC5b`: both argument orders
return the same outcome, and the existing session 42 is returned with the
store unchanged. -/
theorem createOrGetChatSession_canonical_idempotent_witness :
    createOrGetChatSession stC5b 7 99 1 2 = createOrGetChatSession stC5b 7 99 2 1 ∧
    createOrGetChatSession stC5b 7 99 1 2 =
      ⟨stC5b, .ok ⟨42, 1, 2, 0, 86400000, false, false, true⟩⟩ := by
  constructor
  · exact (createOrGetChatSession_canonical_idempotent stC5b 7 99 1 2).1
      ⟨1, "a", "user", false, true⟩ ⟨2, "b", "user", false, true⟩
      (by decide) (by decide) rfl rfl
  · exact (createOrGetChatSession_canonical_idempotent stC5b 7 99 1 2).2
      ⟨2, "b", "user", false, true⟩ ⟨42, 1, 2, 0, 86400000, false, false, true⟩
      (by decide) rfl (by decide)

/-- Helper: a successful `head?` of a filtered list yields a member of the
original list satisfying the predicate. -/
theorem head?_filter_spec {α : Type} (p : α → Bool) (l : List α) (x : α)
    (h : (l.filter p).head? = some x) : x ∈ l ∧ p x = true := by
  have hx : x ∈ l.filter p := by
    cases hl : l.filter p with
    | nil => rw [hl] at h; cases h
    | cons a t =>
        rw [hl] at h
        cases h
        exact List.mem_cons_self x t
  exact List.mem_filter.mp hx

/-- Helper: `userById` returns a row whose id is the requested one. -/
theorem userById_spec (st : Db) (uid : Nat) (u : UserRow)
    (h : userById st uid = some u) : u ∈ st.users ∧ u.id = uid := by
  have := head?_filter_spec _ _ _ h
  exact ⟨this.1, by simpa using this.2⟩

/-- C7: `sendMessage` never fails silently: every call either raises one of
the typed errors with the store unchanged (no persisted row) and no push
attempted, or persists exactly one row carrying the generated id and makes
exactly one push attempt, targeted at the participant of the session other
than the sender. -/
theorem sendMessage_never_silent (st : Db)
    (now messageId session_id sender_id : Nat) (content type : String)
    (reply : Option Nat) (cap : Option String) :
    (∃ e, (sendMessage st now messageId session_id sender_id content type
        reply cap) = ⟨st, .error e, []⟩) ∨
    (∃ msg session,
      (sendMessage st now messageId session_id sender_id content type
        reply cap).result = .ok msg ∧
      msg.id = messageId ∧
      (sendMessage st now messageId session_id sender_id content type
        reply cap).st.messages = msg :: st.messages ∧
      findActiveSession st session_id = some session ∧
      (sendMessage st now messageId session_id sender_id content type
        reply cap).pushes = [broadcastNewMessage session msg] ∧
      (broadcastNewMessage session msg).target =
        (if session.user1_id = sender_id then session.user2_id
         else session.user1_id)) := by
  simp only [sendMessage]
  split
  · exact Or.inl ⟨_, rfl⟩
  · rename_i session hses
    split
    · exact Or.inl ⟨_, rfl⟩
    · rename_i hpart
      split
      · exact Or.inl ⟨_, rfl⟩
      · rename_i other hother
        split
        · exact Or.inl ⟨_, rfl⟩
        · rename_i honline
          split
          · exact Or.inl ⟨_, rfl⟩
          · rename_i stored hstored
            refine Or.inr ⟨_, session, rfl, rfl, ?_, hses, rfl, ?_⟩
            · split
              · split
                · rfl
                · rfl
              · split
                · rfl
                · rfl
            · simp only [broadcastNewMessage]
              by_cases h1 : session.user1_id = sender_id
              · simp [h1]
              · simp [h1, beq_eq_false_iff_ne.mpr h1]

/-- Concrete store for the C7 witness: an active session between online
users 1 and 2. -/
def stC7 : Db :=
  { users := [⟨1, "a", "user", false, true⟩, ⟨2, "b", "user", false, true⟩],
    chat_sessions := [⟨10, 1, 2, 0, 86400000, false, false, true⟩],
    messages := [], message_reactions := [], rooms := [], room_members := [],
    room_messages := [], projects := [], project_members := [],
    project_messages := [], bans := [] }

/-- Witness for C7 evaluated on `stC7`: the concrete send persists one row
and attempts exactly one push. -/
theorem sendMessage_never_silent_witness :
    (∃ e, (sendMessage stC7 5 100 10 1 "hi" "text" none none) =
        ⟨stC7, .error e, []⟩) ∨
    (∃ msg session,
      (sendMessage stC7 5 100 10 1 "hi" "text" none none).result = .ok msg ∧
      msg.id = 100 ∧
      (sendMessage stC7 5 100 10 1 "hi" "text" none none).st.messages =
        msg :: stC7.messages ∧
      findActiveSession stC7 10 = some session ∧
      (sendMessage stC7 5 100 10 1 "hi" "text" none none).pushes =
        [broadcastNewMessage session msg] ∧
      (broadcastNewMessage session msg).target =
        (if session.user1_id = 1 then session.user2_id
         else session.user1_id)) :=
  sendMessage_never_silent stC7 5 100 10 1 "hi" "text" none none

/-- Concrete store for the C9 counterexample: room 1 was created by user 1,
who is a member together with user 2. -/
def stC9 : Db :=
  { users := [⟨1, "creator", "user", false, true⟩, ⟨2, "m", "user", false, true⟩],
    chat_sessions := [], messages := [], message_reactions := [],
    rooms := [⟨1, "r", 1, false, 0, none, true⟩],
    room_members := [⟨10, 1, 1, 0⟩, ⟨11, 1, 2, 5⟩],
    room_messages := [], projects := [], project_members := [],
    project_messages := [], bans := [] }

/-- Counterexample refuting C9: on `stC9` user 1 is the creator of room 1,
yet `leaveRoom` does not fail — it removes the creator's membership row
(only the non-creator row survives), so the creator's leave is not rejected
with Forbidden and the membership does not stay unchanged. -/
theorem leaveRoom_creator_not_rejected :
    (stC9.rooms.head?.map (fun r => r.creator_id)) = some 1 ∧
    (leaveRoom stC9 1 1).1.room_members = [⟨11, 1, 2, 5⟩] := by
  decide

/-- C9 (amended): `leaveRoom` performs no creator check — it removes the
matching membership row for any user, the creator included, broadcasting a
'left' presence event to the remaining members; the creator restriction is
enforced only by the project-side `leaveProject`, which rejects the creator
with an error and leaves the store unchanged, and for non-creators removes
the membership row. -/
theorem leaveRoom_unchecked_leaveProject_enforced
    (st : Db) (roomId userId projectId : Nat) :
    ((leaveRoom st roomId userId).1.room_members =
      st.room_members.filter (fun m =>
        !(m.room_id == roomId && m.user_id == userId))) ∧
    (∀ u, userById st userId = some u →
      ∀ p ∈ (leaveRoom st roomId userId).2, p.event = "left" ∧
        ∃ m ∈ (leaveRoom st roomId userId).1.room_members,
          m.room_id = roomId ∧ m.user_id = p.target) ∧
    (∀ proj, getProjectById st projectId = some proj →
      proj.creator_id = userId →
      leaveProject st projectId userId =
        (st, .error "Project creator cannot leave. Archive the project instead.",
          [])) ∧
    (∀ proj, getProjectById st projectId = some proj →
      proj.creator_id ≠ userId →
      (leaveProject st projectId userId).1.project_members =
        st.project_members.filter (fun m =>
          !(m.project_id == projectId && m.user_id == userId)) ∧
      (leaveProject st projectId userId).2.1 = .ok ()) := by
  refine ⟨?_, ?_, ?_, ?_⟩
  · simp only [leaveRoom]
    split
    · rfl
    · rfl
  · intro u hu p hp
    simp only [leaveRoom, hu] at hp ⊢
    simp only [broadcastRoomPresence, List.mem_map] at hp
    obtain ⟨m, hm, hpm⟩ := hp
    have hmf := List.mem_filter.mp hm
    refine ⟨by rw [← hpm], m, hmf.1, ?_, by rw [← hpm]⟩
    have h2 := hmf.2
    simp only [Bool.and_eq_true, beq_iff_eq] at h2
    exact h2.1
  · intro proj hp hc
    simp only [leaveProject, hp]
    rw [if_pos (by simpa using hc)]
  · intro proj hp hc
    simp only [leaveProject, hp]
    rw [if_neg (by simpa using hc)]
    constructor
    · split
      · rfl
      · rfl
    · split
      · rfl
      · rfl

/-- Concrete store for the C9 witness: project 5 created by user 1 with
member user 2; room 1 with members 1 and 2. -/
def stC9b : Db :=
  { users := [⟨1, "creator", "freelancer", false, true⟩,
      ⟨2, "m", "user", false, true⟩],
    chat_sessions := [], messages := [], message_reactions := [],
    rooms := [⟨1, "r", 1, false, 0, none, true⟩],
    room_members := [⟨10, 1, 1, 0⟩, ⟨11, 1, 2, 5⟩],
    room_messages := [],
    projects := [⟨5, "p", 1, "code12345678", "active", 0⟩],
    project_members := [⟨20, 5, 1, 0⟩, ⟨21, 5, 2, 0⟩],
    project_messages := [], bans := [] }

/-- Witness for the amended C9 theorem on `stC9b`: the creator's
`leaveProject` is rejected with the store unchanged, while `leaveRoom`
removes the membership row. -/
theorem leaveRoom_unchecked_leaveProject_enforced_witness :
    leaveProject stC9b 5 1 =
      (stC9b, .error "Project creator cannot leave. Archive the project instead.",
        []) ∧
    (leaveRoom stC9b 1 1).1.room_members =
      stC9b.room_members.filter (fun m => !(m.room_id == 1 && m.user_id == 1)) := by
  constructor
  · exact (leaveRoom_unchecked_leaveProject_enforced stC9b 1 1 5).2.2.1
      ⟨5, "p", 1, "code12345678", "active", 0⟩ (by decide) rfl
  · exact (leaveRoom_unchecked_leaveProject_enforced stC9b 1 1 5).1

/-- Helper: `findActiveSession` returns a member row carrying the requested
id with the active flag set. -/
theorem findActiveSession_spec (st : Db) (sid : Nat) (s : SessionRow)
    (h : findActiveSession st sid = some s) :
    s ∈ st.chat_sessions ∧ s.id = sid ∧ s.is_active = true := by
  have := head?_filter_spec _ _ _ h
  refine ⟨this.1, ?_, ?_⟩
  · have h2 := this.2
    simp only [Bool.and_eq_true, beq_iff_eq] at h2
    exact h2.1
  · have h2 := this.2
    simp only [Bool.and_eq_true, beq_iff_eq] at h2
    exact h2.2

/-- Helper: filtering on a key shared with a member of a key-Nodup list
returns exactly that member. -/
theorem filter_key_unique {α : Type} (key : α → Nat) (l : List α) (x : α)
    (hnd : (l.map key).Nodup) (hx : x ∈ l) :
    l.filter (fun y => key y == key x) = [x] := by
  induction l with
  | nil => cases hx
  | cons a t ih =>
      rw [List.map_cons, List.nodup_cons] at hnd
      rcases List.mem_cons.mp hx with rfl | hxt
      · rw [List.filter_cons_of_pos (by simp)]
        have hnil : t.filter (fun y => key y == key x) = [] := by
          rw [List.filter_eq_nil_iff]
          intro y hy
          simp only [beq_iff_eq]
          intro hkey
          exact hnd.1 (hkey ▸ List.mem_map_of_mem key hy)
        rw [hnil]
      · have hne : (key a == key x) = false := by
          simp only [beq_eq_false_iff_ne, ne_eq]
          intro h
          exact hnd.1 (h ▸ List.mem_map_of_mem key hxt)
        rw [List.filter_cons_of_neg (by simp [hne]), ih hnd.2 hxt]

/-- Helper: filtering commutes with a map that does not change the value of
the filter predicate. -/
theorem filter_map_pred_comm {α : Type} (f : α → α) (p : α → Bool)
    (l : List α) (h : ∀ y, p (f y) = p y) :
    (l.map f).filter p = (l.filter p).map f := by
  induction l with
  | nil => rfl
  | cons a t ih =>
      by_cases hp : p a = true
      · rw [List.map_cons, List.filter_cons_of_pos (by rw [h]; exact hp),
          List.filter_cons_of_pos hp, List.map_cons, ih]
      · rw [List.map_cons, List.filter_cons_of_neg (by rw [h]; simp [hp]),
          List.filter_cons_of_neg (by simp [hp]), ih]

/-- C1: for an active session between two distinct participants, a
successful `sendMessage` persists a row that is visible to the sender,
visible to the other participant exactly when that participant's
logged-out flag was not set at send time, and afterwards the stored
session has the sender's own logged-out flag cleared while the other
participant's flag is unchanged. -/
theorem sendMessage_visibility_and_flags
    (st : Db) (now messageId session_id sender_id : Nat)
    (content type : String) (reply : Option Nat) (cap : Option String)
    (session : SessionRow) (msg : MessageRow)
    (hses : findActiveSession st session_id = some session)
    (hne : session.user1_id ≠ session.user2_id)
    (hnd : (st.chat_sessions.map (fun s => s.id)).Nodup)
    (hok : (sendMessage st now messageId session_id sender_id content type
      reply cap).result = .ok msg) :
    msg ∈ (sendMessage st now messageId session_id sender_id content type
      reply cap).st.messages ∧
    (session.user1_id = sender_id →
      msg.visible_to_user1 = true ∧
      msg.visible_to_user2 = !session.user2_logged_out) ∧
    (session.user2_id = sender_id →
      msg.visible_to_user2 = true ∧
      msg.visible_to_user1 = !session.user1_logged_out) ∧
    sessionById (sendMessage st now messageId session_id sender_id content
      type reply cap).st session_id =
      some { session with
        user1_logged_out := if session.user1_id = sender_id then false
          else session.user1_logged_out,
        user2_logged_out := if session.user2_id = sender_id then false
          else session.user2_logged_out } := by
  obtain ⟨hmem, hsid, hact⟩ := findActiveSession_spec st session_id session hses
  have huniq : st.chat_sessions.filter (fun s => s.id == session_id) =
      [session] := by
    rw [← hsid]
    exact filter_key_unique (fun s => s.id) _ session hnd hmem
  by_cases h1 : (session.user1_id == sender_id) = true
  · have h2 : (session.user2_id == sender_id) = false := by
      simp only [beq_iff_eq] at h1
      simp only [beq_eq_false_iff_ne, ne_eq]
      intro h
      exact hne (h1.trans h.symm)
    have hval1 : session.user1_id = sender_id := by simpa using h1
    have hval2 : session.user2_id ≠ sender_id := by simpa using h2
    simp only [sendMessage, hses, h1, h2, Bool.not_true, Bool.not_false,
      Bool.false_and, Bool.false_eq_true, if_false, if_true] at hok ⊢
    cases hub : userById st session.user2_id with
    | none => rw [hub] at hok; simp at hok
    | some other =>
        rw [hub] at hok
        dsimp only at hok ⊢
        by_cases hon : other.is_online = true
        · simp only [hon, Bool.not_true, Bool.false_eq_true, if_false]
            at hok ⊢
          cases hcs : contentToStore content type with
          | error e => rw [hcs] at hok; simp at hok
          | ok stored =>
              rw [hcs] at hok
              dsimp only at hok ⊢
              rw [Except.ok.injEq] at hok
              subst hok
              refine ⟨?_, ?_, ?_, ?_⟩
              · split
                · exact List.mem_cons_self _ _
                · exact List.mem_cons_self _ _
              · intro _
                exact ⟨rfl, rfl⟩
              · intro h
                exact absurd h hval2
              · rw [if_pos hval1, if_neg (fun h => hval2 h)]
                by_cases hlo : session.user1_logged_out = true
                · rw [if_pos (by simp [hlo])]
                  simp only [sessionById]
                  have hcomm : (st.chat_sessions.map (fun s =>
                      if (s.id == session_id) = true then
                        { s with user1_logged_out := false } else s)).filter
                        (fun s => s.id == session_id) =
                      (st.chat_sessions.filter
                        (fun s => s.id == session_id)).map (fun s =>
                        if (s.id == session_id) = true then
                          { s with user1_logged_out := false } else s) := by
                    apply filter_map_pred_comm
                    intro y
                    by_cases hy : (y.id == session_id) = true
                    · simp [hy]
                    · simp [hy]
                  rw [hcomm, huniq]
                  simp [hsid, hlo]
                · rw [if_neg (by simp [hlo])]
                  have hlo' : session.user1_logged_out = false := by
                    simpa using hlo
                  simp only [sessionById]
                  rw [huniq]
                  simp only [List.map_cons, List.head?]
                  cases session
                  simp only at hlo'
                  simp [hlo']
        · simp only [hon] at hok
          simp at hok
  · by_cases h2 : (session.user2_id == sender_id) = true
    · have hval2 : session.user2_id = sender_id := by simpa using h2
      have hval1 : session.user1_id ≠ sender_id := by simpa using h1
      simp only [sendMessage, hses, h1, h2, Bool.not_true, Bool.not_false,
        Bool.and_false, Bool.false_and, Bool.false_eq_true, if_false, if_true]
        at hok ⊢
      cases hub : userById st session.user1_id with
      | none => rw [hub] at hok; simp at hok
      | some other =>
          rw [hub] at hok
          dsimp only at hok ⊢
          by_cases hon : other.is_online = true
          · simp only [hon, Bool.not_true, Bool.false_eq_true, if_false]
              at hok ⊢
            cases hcs : contentToStore content type with
            | error e => rw [hcs] at hok; simp at hok
            | ok stored =>
                rw [hcs] at hok
                dsimp only at hok ⊢
                rw [Except.ok.injEq] at hok
                subst hok
                refine ⟨?_, ?_, ?_, ?_⟩
                · split
                  · exact List.mem_cons_self _ _
                  · exact List.mem_cons_self _ _
                · intro h
                  exact absurd h hval1
                · intro _
                  exact ⟨rfl, rfl⟩
                · rw [if_neg (fun h => hval1 h), if_pos hval2]
                  by_cases hlo : session.user2_logged_out = true
                  · rw [if_pos (by simp [hlo])]
                    simp only [sessionById]
                    have hcomm : (st.chat_sessions.map (fun s =>
                        if (s.id == session_id) = true then
                          { s with user2_logged_out := false } else s)).filter
                          (fun s => s.id == session_id) =
                        (st.chat_sessions.filter
                          (fun s => s.id == session_id)).map (fun s =>
                          if (s.id == session_id) = true then
                            { s with user2_logged_out := false } else s) := by
                      apply filter_map_pred_comm
                      intro y
                      by_cases hy : (y.id == session_id) = true
                      · simp [hy]
                      · simp [hy]
                    rw [hcomm, huniq]
                    simp [hsid, hlo]
                  · rw [if_neg (by simp [hlo])]
                    have hlo' : session.user2_logged_out = false := by
                      simpa using hlo
                    simp only [sessionById]
                    rw [huniq]
                    simp only [List.map_cons, List.head?]
                    cases session
                    simp only at hlo'
                    simp [hlo']
          · simp only [hon] at hok
            simp at hok
    · simp only [sendMessage, hses, h1, h2, Bool.not_false, Bool.and_self,
        if_true] at hok
      cases hok

/-- Concrete store for the C1 witness: active session 10 between users 1
and 2, both flagged logged-out, both online. -/
def stC1 : Db :=
  { users := [⟨1, "a", "user", false, true⟩, ⟨2, "b", "user", false, true⟩],
    chat_sessions := [⟨10, 1, 2, 0, 86400000, true, true, true⟩],
    messages := [], message_reactions := [], rooms := [], room_members := [],
    room_messages := [], projects := [], project_members := [],
    project_messages := [], bans := [] }

/-- The message row persisted by the C1 witness send: sent by user 2, hidden
from user 1 (whose flag was set), visible to the sender. -/
def msgC1 : MessageRow :=
  ⟨100, 10, 2, "hi", "text", 7, false, false, true, none, none⟩

/-- Witness for C1 evaluated on `stC1`: user 2 sends while both flags are
set; the row is stored visible to the sender and hidden from user 1, and
afterwards only the sender's flag is cleared. -/
theorem sendMessage_visibility_and_flags_witness :
    msgC1 ∈ (sendMessage stC1 7 100 10 2 "hi" "text" none none).st.messages ∧
    sessionById (sendMessage stC1 7 100 10 2 "hi" "text" none none).st 10 =
      some ⟨10, 1, 2, 0, 86400000, true, false, true⟩ := by
  have h := sendMessage_visibility_and_flags stC1 7 100 10 2 "hi" "text"
    none none ⟨10, 1, 2, 0, 86400000, true, true, true⟩ msgC1
    (by decide) (by decide) (by decide) (by decide)
  exact ⟨h.1, h.2.2.2⟩

/-- Helper: two members of a list with Nodup keys sharing a key are equal. -/
theorem nodup_key_eq {α : Type} (key : α → Nat) (l : List α)
    (hnd : (l.map key).Nodup) (x y : α) (hx : x ∈ l) (hy : y ∈ l)
    (h : key x = key y) : x = y :=
  List.inj_on_of_nodup_map hnd hx hy h

/-- C3: `cleanupOldChats` deletes every conversation whose `expires_at` has
passed together with all of its messages (messages younger than 24h
included, via the schema's cascade), irrespective of the logged-out flags,
while conversations that are not yet expired keep all of their messages —
the latter under the reachable-state invariants that `expires_at` is
creation time plus 24h and messages are not older than their session. -/
theorem cleanupOldChats_sweep (st : Db) (now : Nat)
    (hnd : (st.chat_sessions.map (fun s => s.id)).Nodup)
    (hexp : ∀ s ∈ st.chat_sessions,
      s.expires_at = s.created_at + 24 * 60 * 60 * 1000)
    (hmsg : ∀ m ∈ st.messages, ∀ s ∈ st.chat_sessions,
      m.session_id = s.id → s.created_at ≤ m.created_at) :
    (∀ s ∈ st.chat_sessions, s.expires_at < now →
      s ∉ (cleanupOldChats st now).1.chat_sessions ∧
      ∀ m ∈ (cleanupOldChats st now).1.messages, m.session_id ≠ s.id) ∧
    (∀ s ∈ st.chat_sessions, ¬ s.expires_at < now →
      s ∈ (cleanupOldChats st now).1.chat_sessions ∧
      ∀ m ∈ st.messages, m.session_id = s.id →
        m ∈ (cleanupOldChats st now).1.messages) := by
  constructor
  · intro s hs hsx
    constructor
    · intro hmem
      simp only [cleanupOldChats, deleteSessionsWhere, deleteMessagesWhere]
        at hmem
      have := (List.mem_filter.mp hmem).2
      simp [hsx] at this
    · intro m hm
      simp only [cleanupOldChats, deleteSessionsWhere, deleteMessagesWhere]
        at hm
      have hkeep := (List.mem_filter.mp hm).2
      intro hsid
      simp only [Bool.not_eq_true', List.any_eq_false, Bool.and_eq_true,
        decide_eq_true_eq, beq_iff_eq, not_and] at hkeep
      exact hkeep s hs hsx hsid.symm
  · intro s hs hsx
    constructor
    · simp only [cleanupOldChats, deleteSessionsWhere, deleteMessagesWhere]
      refine List.mem_filter.mpr ⟨hs, ?_⟩
      simp [hsx]
    · intro m hm hsid
      have hage : ¬ (m.created_at < now - 24 * 60 * 60 * 1000) := by
        intro hlt
        have h1 := hmsg m hm s hs hsid
        have h2 := hexp s hs
        have h3 : now ≤ s.expires_at := Nat.le_of_not_lt hsx
        rw [h2] at h3
        have h4 : now - 24 * 60 * 60 * 1000 ≤ s.created_at :=
          Nat.sub_le_of_le_add h3
        exact absurd hlt (Nat.not_lt.mpr (h4.trans h1))
      simp only [cleanupOldChats, deleteSessionsWhere, deleteMessagesWhere]
      refine List.mem_filter.mpr ⟨List.mem_filter.mpr ⟨hm, by simp [hage]⟩, ?_⟩
      simp only [Bool.not_eq_true', List.any_eq_false, Bool.and_eq_true,
        decide_eq_true_eq, beq_iff_eq, not_and]
      intro x hx hxexp hxid
      have hxy : x = s :=
        nodup_key_eq (fun s => s.id) _ hnd x s hx hs (hxid.trans hsid)
      exact hsx (hxy ▸ hxexp)

/-- Concrete store for the C3 witness: session 1 expired (with a message
only ~5.5h old), session 2 still alive with its message. -/
def stC3 : Db :=
  { users := [],
    chat_sessions := [⟨1, 1, 2, 0, 86400000, false, false, true⟩,
      ⟨2, 3, 4, 90000000, 176400000, false, false, true⟩],
    messages := [⟨100, 1, 1, "x", "text", 80000000, false, true, true, none, none⟩,
      ⟨200, 2, 3, "y", "text", 95000000, false, true, true, none, none⟩],
    message_reactions := [], rooms := [], room_members := [],
    room_messages := [], projects := [], project_members := [],
    project_messages := [], bans := [] }

/-- Witness for C3 evaluated on `stC3` at time 100000000: the expired
session 1 is gone together with its young message, while session 2 keeps
its message. -/
theorem cleanupOldChats_sweep_witness :
    (⟨1, 1, 2, 0, 86400000, false, false, true⟩ : SessionRow)
      ∉ (cleanupOldChats stC3 100000000).1.chat_sessions ∧
    (∀ m ∈ (cleanupOldChats stC3 100000000).1.messages, m.session_id ≠ 1) ∧
    (⟨200, 2, 3, "y", "text", 95000000, false, true, true, none, none⟩ :
        MessageRow) ∈ (cleanupOldChats stC3 100000000).1.messages := by
  have h := cleanupOldChats_sweep stC3 100000000 (by decide) (by decide)
    (by decide)
  exact ⟨(h.1 ⟨1, 1, 2, 0, 86400000, false, false, true⟩ (by decide)
      (by decide)).1,
    (h.1 ⟨1, 1, 2, 0, 86400000, false, false, true⟩ (by decide) (by decide)).2,
    (h.2 ⟨2, 3, 4, 90000000, 176400000, false, false, true⟩ (by decide)
      (by decide)).2 _ (by decide) rfl⟩

/-- Helper: a filtered map is no longer than the filtered original when the
map can only turn the predicate off. -/
theorem length_filter_map_le {α : Type} (f : α → α) (p : α → Bool)
    (l : List α) (h : ∀ x, p (f x) = true → p x = true) :
    ((l.map f).filter p).length ≤ (l.filter p).length := by
  induction l with
  | nil => exact Nat.le_refl 0
  | cons a t ih =>
      rw [List.map_cons]
      by_cases hfa : p (f a) = true
      · rw [List.filter_cons_of_pos hfa, List.filter_cons_of_pos (h a hfa)]
        simpa using ih
      · rw [List.filter_cons_of_neg (by simpa using hfa)]
        by_cases ha : p a = true
        · rw [List.filter_cons_of_pos ha]
          exact ih.trans (Nat.le_succ _)
        · rw [List.filter_cons_of_neg (by simpa using ha)]
          exact ih

/-- C8: issuing a ban through `banUser` preserves the at-most-one-active-ban
invariant (it deactivates all previous bans of the target before inserting
the new one); at authentication time a user with role 'banned' whose
latest active ban is permanent, has no expiry, or has not yet expired is
rejected with the store unchanged, while the first authenticated request
after a temporary ban expires deactivates that ban record, resets the
user's role to 'user' and lets the request proceed. -/
theorem ban_lifecycle (st : Db) (now uid : Nat) :
    (∀ banId bannedBy d reason st' b,
      banUser st now banId uid bannedBy d reason = (st', .ok b) →
      atMostOneActiveBan st → atMostOneActiveBan st') ∧
    (∀ u b, userById st uid = some u → u.role = "banned" →
      latestActiveBan st uid = some b →
      ((b.is_permanent = true ∨ b.expires_at = none ∨
        (∃ e, b.expires_at = some e ∧ now ≤ e)) →
        authMiddlewareBanCheck st now uid = (st, .bannedReject)) ∧
      (∀ e, b.is_permanent = false → b.expires_at = some e → e ≠ 0 →
        e < now →
        ∃ st', authMiddlewareBanCheck st now uid =
            (st', .proceed { u with role := "user" }) ∧
          (∀ b' ∈ st'.bans, b'.id = b.id → b'.is_active = false) ∧
          (∀ u' ∈ st'.users, u'.id = uid → u'.role = "user") ∧
          st'.bans.length = st.bans.length)) := by
  constructor
  · intro banId bannedBy d reason st' b h hinv
    simp only [banUser] at h
    rw [Prod.mk.injEq] at h
    split at h
    · exact absurd h.2 (by simp)
    · split at h
      · exact absurd h.2 (by simp)
      · split at h
        · exact absurd h.2 (by simp)
        · split at h
          · exact absurd h.2 (by simp)
          · split at h
            · exact absurd h.2 (by simp)
            · obtain ⟨hst, -⟩ := h
              subst hst
              intro u
              by_cases hu : u = uid
              · rw [hu]
                simp only [activeBanCount]
                rw [List.filter_cons_of_pos (by simp)]
                have hnil : (st.bans.map (fun b =>
                    if b.user_id == uid && b.is_active then
                      { b with is_active := false } else b)).filter
                    (fun b => b.user_id == uid && b.is_active) = [] := by
                  rw [List.filter_eq_nil_iff]
                  intro y hy
                  rw [List.mem_map] at hy
                  obtain ⟨x, hx, hfx⟩ := hy
                  subst hfx
                  by_cases hc : (x.user_id == uid && x.is_active) = true
                  · rw [if_pos hc]
                    simp
                  · rw [if_neg hc]
                    simpa using hc
                rw [hnil]
                exact Nat.le_refl 1
              · simp only [activeBanCount]
                rw [List.filter_cons_of_neg (by simp [Ne.symm hu])]
                calc ((st.bans.map (fun b =>
                        if b.user_id == uid && b.is_active then
                          { b with is_active := false } else b)).filter
                        (fun b => b.user_id == u && b.is_active)).length
                    ≤ (st.bans.filter
                        (fun b => b.user_id == u && b.is_active)).length := by
                      apply length_filter_map_le
                      intro x hpx
                      by_cases hc : (x.user_id == uid && x.is_active) = true
                      · rw [if_pos hc] at hpx
                        simp at hpx
                      · rwa [if_neg hc] at hpx
                  _ ≤ 1 := hinv u
  · intro u b hu hrole hban
    constructor
    · intro hcase
      have hcondf : (!b.is_permanent && jsTruthyTime b.expires_at
          && decide (b.expires_at.getD 0 < now)) = false := by
        rcases hcase with hperm | hnone | ⟨e, he, hle⟩
        · simp [hperm]
        · simp [hnone, jsTruthyTime]
        · simp [he, Nat.not_lt.mpr hle]
      simp only [authMiddlewareBanCheck, hu, hrole, beq_self_eq_true, if_true,
        hban, hcondf, Bool.false_eq_true, if_false]
    · intro e hperm he h0 hlt
      simp only [authMiddlewareBanCheck, hu, hrole, beq_self_eq_true, if_true,
        hban]
      rw [if_pos (by simp [hperm, he, jsTruthyTime, h0, hlt])]
      refine ⟨_, rfl, ?_, ?_, by simp⟩
      · intro b' hb' hid
        rw [List.mem_map] at hb'
        obtain ⟨x, hx, hfx⟩ := hb'
        subst hfx
        by_cases hc : (x.id == b.id) = true
        · rw [if_pos hc]
        · rw [if_neg hc] at hid ⊢
          exact absurd hid (by simpa using hc)
      · intro u' hu' hid
        rw [List.mem_map] at hu'
        obtain ⟨x, hx, hfx⟩ := hu'
        subst hfx
        by_cases hc : (x.id == uid) = true
        · rw [if_pos hc]
        · rw [if_neg hc] at hid ⊢
          exact absurd hid (by simpa using hc)

/-- Concrete store for the C8 witness: user 1 is banned (temporary ban 500,
expiring at t=5000) and user 9 is an admin. -/
def stC8 : Db :=
  { users := [⟨1, "u", "banned", false, false⟩, ⟨9, "boss", "admin", false, true⟩],
    chat_sessions := [], messages := [], message_reactions := [], rooms := [],
    room_members := [], room_messages := [], projects := [],
    project_members := [], project_messages := [],
    bans := [⟨500, 1, 9, "r", some 3, 1000, some 5000, false, true⟩] }

/-- Store after the witness `banUser` call on `stC8`: the old ban is
deactivated and the new ban 600 is the only active one. -/
def stC8' : Db :=
  { stC8 with
    bans := [⟨600, 1, 9, "again", some 3, 2000, some 259202000, false, true⟩,
      ⟨500, 1, 9, "r", some 3, 1000, some 5000, false, false⟩] }

/-- Witness for C8 evaluated on `stC8`: re-banning keeps at most one active
ban, authentication at t=2000 still rejects, and authentication at t=9000
lifts the expired ban and proceeds with the role reset. -/
theorem ban_lifecycle_witness :
    atMostOneActiveBan stC8' ∧
    authMiddlewareBanCheck stC8 2000 1 = (stC8, .bannedReject) ∧
    (∃ st', authMiddlewareBanCheck stC8 9000 1 =
        (st', .proceed ⟨1, "u", "user", false, false⟩) ∧
      (∀ b' ∈ st'.bans, b'.id = 500 → b'.is_active = false) ∧
      (∀ u' ∈ st'.users, u'.id = 1 → u'.role = "user") ∧
      st'.bans.length = stC8.bans.length) := by
  have hinv : atMostOneActiveBan stC8 := by
    intro u
    by_cases h : u = 1
    · subst h
      decide
    · have hne : ((1 : Nat) == u) = false := beq_eq_false_iff_ne.mpr (Ne.symm h)
      simp [activeBanCount, stC8, hne]
  refine ⟨?_, ?_, ?_⟩
  · exact (ban_lifecycle stC8 2000 1).1 600 9 (some 3) "again" stC8'
      ⟨600, 1, 9, "again", some 3, 2000, some 259202000, false, true⟩
      (by decide) hinv
  · exact ((ban_lifecycle stC8 2000 1).2 ⟨1, "u", "banned", false, false⟩
      ⟨500, 1, 9, "r", some 3, 1000, some 5000, false, true⟩
      (by decide) rfl (by decide)).1
      (Or.inr (Or.inr ⟨5000, rfl, by decide⟩))
  · exact ((ban_lifecycle stC8 9000 1).2 ⟨1, "u", "banned", false, false⟩
      ⟨500, 1, 9, "r", some 3, 1000, some 5000, false, true⟩
      (by decide) rfl (by decide)).2 5000 rfl rfl (by decide) (by decide)

/-- Concrete store for the C2 counterexample: session 10 between users 1
and 2; user 1 (the peer) has already logged out, and the session's single
media message was hidden from user 2 by an earlier logout of user 2. -/
def stC2 : Db :=
  { users := [⟨1, "a", "user", false, false⟩, ⟨2, "b", "user", false, true⟩],
    chat_sessions := [⟨10, 1, 2, 0, 86400000, true, false, true⟩],
    messages := [⟨100, 10, 1, "pid1", "image", 5, false, true, false, none, none⟩],
    message_reactions := [], rooms := [], room_members := [],
    room_messages := [], projects := [], project_members := [],
    project_messages := [], bans := [] }

/-- Counterexample refuting C2: on `stC2` the conversation holds a media
attachment (public id "pid1") and the peer's logged-out flag is set, yet
`handleUserLogout` for user 2 deletes the conversation while issuing no
media deletion request at all — the attachment's Cloudinary deletion is
never requested. -/
theorem handleUserLogout_media_not_requested :
    (stC2.messages.filter (fun m =>
      m.session_id == 10 && mediaTypes.contains m.type)).length = 1 ∧
    (∀ s ∈ stC2.chat_sessions, s.user1_logged_out = true) ∧
    (handleUserLogout stC2 2).1.chat_sessions = [] ∧
    (handleUserLogout stC2 2).2 = [] := by
  decide

/-- Helper: fold preservation of a predicate along `List.foldl`. -/
theorem foldl_preserve {α β : Type} (f : β → α → β) (P : β → Prop)
    (l : List α) (acc : β) (h : P acc)
    (hstep : ∀ b a, a ∈ l → P b → P (f b a)) :
    P (List.foldl f acc l) := by
  induction l generalizing acc with
  | nil => exact h
  | cons a t ih =>
      exact ih (f acc a) (hstep acc a (List.mem_cons_self a t) h)
        (fun b x hx hb => hstep b x (List.mem_cons.mpr (Or.inr hx)) hb)

/-- Helper: `hideFrom` changes only a visibility bit. -/
theorem hideFrom_fields (b : Bool) (m : MessageRow) :
    (hideFrom b m).session_id = m.session_id ∧ (hideFrom b m).id = m.id := by
  cases b
  · exact ⟨rfl, rfl⟩
  · exact ⟨rfl, rfl⟩

/-- Helper: the hide map of a logout step preserves session ids and ids. -/
theorem hideMap_track (b : Bool) (tid : Nat) (l : List MessageRow) :
    ∀ y ∈ l.map (fun m => if m.session_id == tid then hideFrom b m else m),
      ∃ m ∈ l, y.session_id = m.session_id ∧ y.id = m.id := by
  intro y hy
  rw [List.mem_map] at hy
  obtain ⟨x, hx, hfx⟩ := hy
  refine ⟨x, hx, ?_⟩
  subst hfx
  by_cases hc : (x.session_id == tid) = true
  · rw [if_pos hc]
    exact ⟨(hideFrom_fields b x).1, (hideFrom_fields b x).2⟩
  · rw [if_neg hc]
    exact ⟨rfl, rfl⟩

/-- Helper: one logout step only removes session rows, never adds them. -/
theorem logoutStep_sessions_sub (uid : Nat) (acc : Db × List MediaRequest)
    (t : SessionRow) :
    ∀ x ∈ (logoutSessionStep uid acc t).1.chat_sessions,
      x ∈ acc.1.chat_sessions := by
  intro x hx
  simp only [logoutSessionStep] at hx
  split at hx
  · simp only [deleteSessionsWhere] at hx
    exact (List.mem_filter.mp hx).1
  · exact hx

/-- Helper: every message surviving one logout step descends from a message
of the previous store with the same session id and id. -/
theorem logoutStep_messages_track (uid : Nat) (acc : Db × List MediaRequest)
    (t : SessionRow) :
    ∀ m' ∈ (logoutSessionStep uid acc t).1.messages,
      ∃ m ∈ acc.1.messages, m'.session_id = m.session_id ∧ m'.id = m.id := by
  intro m' hm'
  simp only [logoutSessionStep] at hm'
  split at hm'
  · simp only [deleteSessionsWhere] at hm'
    exact hideMap_track _ _ _ m' (List.mem_filter.mp hm').1
  · exact hideMap_track _ _ _ m' hm'

/-- Helper: one logout step only appends media deletion requests. -/
theorem logoutStep_reqs_mono (uid : Nat) (acc : Db × List MediaRequest)
    (t : SessionRow) :
    ∀ r ∈ acc.2, r ∈ (logoutSessionStep uid acc t).2 := by
  intro r hr
  simp only [logoutSessionStep]
  split
  · exact List.mem_append_left _ (List.mem_append_left _ hr)
  · exact hr

/-- Helper: one logout step preserves referential integrity of reactions. -/
theorem logoutStep_integrity (uid : Nat) (acc : Db × List MediaRequest)
    (t : SessionRow)
    (h : ∀ r ∈ acc.1.message_reactions,
      ∃ m ∈ acc.1.messages, m.id = r.message_id) :
    ∀ r ∈ (logoutSessionStep uid acc t).1.message_reactions,
      ∃ m ∈ (logoutSessionStep uid acc t).1.messages, m.id = r.message_id := by
  have hhide : ∀ r ∈ acc.1.message_reactions,
      ∃ m ∈ acc.1.messages.map (fun m =>
        if m.session_id == t.id then hideFrom (t.user1_id == uid) m else m),
      m.id = r.message_id := by
    intro r hr
    obtain ⟨m, hm, hmid⟩ := h r hr
    refine ⟨_, List.mem_map_of_mem _ hm, ?_⟩
    by_cases hc : (m.session_id == t.id) = true
    · rw [if_pos hc]
      exact (hideFrom_fields _ m).2.trans hmid
    · rw [if_neg hc]
      exact hmid
  intro r hr
  simp only [logoutSessionStep] at hr ⊢
  split at hr
  · rename_i hcond
    rw [if_pos hcond]
    simp only [deleteSessionsWhere] at hr ⊢
    have hkeepf := (List.mem_filter.mp hr).2
    rw [Bool.not_eq_true'] at hkeepf
    have hnone := List.any_eq_false.mp hkeepf
    have hrmem := (List.mem_filter.mp hr).1
    obtain ⟨m0, hm0, hm0id⟩ := hhide r hrmem
    refine ⟨m0, List.mem_filter.mpr ⟨hm0, ?_⟩, hm0id⟩
    cases hda : (acc.1.chat_sessions.any fun s =>
        (s.id == t.id) && s.id == m0.session_id) with
    | false =>
        rw [Bool.not_eq_true']
    | true =>
        refine absurd ?_ (hnone m0 hm0)
        rw [hda, hm0id]
        simp
  · rename_i hcond
    rw [if_neg hcond]
    exact hhide r hr

/-- Helper: a logout step for a session with a different id leaves the rows
of the given session id untouched. -/
theorem logoutStep_other (uid : Nat) (acc : Db × List MediaRequest)
    (t : SessionRow) (sid : Nat) (hne : t.id ≠ sid) :
    (∀ m ∈ acc.1.messages, m.session_id = sid →
      m ∈ (logoutSessionStep uid acc t).1.messages) ∧
    (∀ x ∈ acc.1.chat_sessions, x.id = sid →
      x ∈ (logoutSessionStep uid acc t).1.chat_sessions) := by
  have hmapmem : ∀ m ∈ acc.1.messages, m.session_id = sid →
      m ∈ acc.1.messages.map (fun m =>
        if m.session_id == t.id then hideFrom (t.user1_id == uid) m else m) := by
    intro m hm hsid
    have hc : (m.session_id == t.id) = false := by
      simp only [beq_eq_false_iff_ne, ne_eq, hsid]
      exact fun h => hne h.symm
    rw [List.mem_map]
    exact ⟨m, hm, by rw [if_neg (by simp [hc])]⟩
  constructor
  · intro m hm hsid
    simp only [logoutSessionStep]
    split
    · simp only [deleteSessionsWhere]
      refine List.mem_filter.mpr ⟨hmapmem m hm hsid, ?_⟩
      simp only [Bool.not_eq_true', List.any_eq_false, Bool.and_eq_true,
        not_and]
      intro x hx hxid
      simp only [beq_iff_eq] at hxid
      rw [hxid, hsid]
      exact fun h => hne (by simpa using h)
    · exact hmapmem m hm hsid
  · intro x hx hxid
    simp only [logoutSessionStep]
    split
    · simp only [deleteSessionsWhere]
      refine List.mem_filter.mpr ⟨hx, ?_⟩
      simp only [Bool.not_eq_true', beq_eq_false_iff_ne, ne_eq, hxid]
      exact fun h => hne h.symm
    · exact hx

/-- Helper: a list with a member is not empty. -/
theorem isEmpty_false_of_mem {α : Type} {x : α} {l : List α} (h : x ∈ l) :
    l.isEmpty = false := by
  cases l with
  | nil => cases h
  | cons a t => rfl

/-- Helper: the logout step applied to the target session itself, when the
other side's flag is set, removes the session and its messages, keeps
reaction integrity, and requests deletion of the media still visible to
the logging-out user. -/
theorem logoutStep_at_target (uid : Nat) (acc : Db × List MediaRequest)
    (s : SessionRow) (st0msgs : List MessageRow)
    (hpeer : otherLoggedOutFlag (s.user1_id == uid) s = true)
    (hsess : s ∈ acc.1.chat_sessions)
    (hintacc : ∀ r ∈ acc.1.message_reactions,
      ∃ m ∈ acc.1.messages, m.id = r.message_id)
    (hmsgs : ∀ m ∈ st0msgs, m.session_id = s.id → m ∈ acc.1.messages) :
    (∀ x ∈ (logoutSessionStep uid acc s).1.chat_sessions, x.id ≠ s.id) ∧
    (∀ m ∈ (logoutSessionStep uid acc s).1.messages, m.session_id ≠ s.id) ∧
    (∀ r ∈ (logoutSessionStep uid acc s).1.message_reactions,
      ∃ m ∈ (logoutSessionStep uid acc s).1.messages, m.id = r.message_id) ∧
    (∀ m ∈ st0msgs, m.session_id = s.id →
      mediaTypes.contains m.type = true →
      visibleTo (s.user1_id == uid) m = true →
      ∃ req ∈ (logoutSessionStep uid acc s).2, m.content ∈ req.publicIds) := by
  refine ⟨?_, ?_, logoutStep_integrity uid acc s hintacc, ?_⟩
  · intro x hx
    simp only [logoutSessionStep] at hx
    rw [if_pos hpeer] at hx
    simp only [deleteSessionsWhere] at hx
    have := (List.mem_filter.mp hx).2
    simpa using this
  · intro m' hm' hsid
    simp only [logoutSessionStep] at hm'
    rw [if_pos hpeer] at hm'
    simp only [deleteSessionsWhere] at hm'
    have hkeep := (List.mem_filter.mp hm').2
    rw [Bool.not_eq_true'] at hkeep
    have hnone := List.any_eq_false.mp hkeep
    refine hnone s hsess ?_
    simp [hsid]
  · intro m hm hsid hmedia hvis
    have hmm : m ∈ (acc.1.messages.filter (fun x =>
        x.session_id == s.id && visibleTo (s.user1_id == uid) x
          && mediaTypes.contains x.type)) :=
      List.mem_filter.mpr ⟨hmsgs m hm hsid, by
        simp only [hsid, beq_self_eq_true, Bool.true_and, hvis, hmedia]⟩
    by_cases haud : (m.type == "audio") = true
    · have hcont : m.content ∈ ((acc.1.messages.filter (fun x =>
          x.session_id == s.id && visibleTo (s.user1_id == uid) x
            && mediaTypes.contains x.type)).filter
          (fun x => x.type == "audio")).map (fun x => x.content) :=
        List.mem_map_of_mem _ (List.mem_filter.mpr ⟨hmm, haud⟩)
      have hie := isEmpty_false_of_mem hcont
      refine ⟨⟨_, "audio"⟩, ?_, hcont⟩
      simp only [logoutSessionStep]
      rw [if_pos hpeer]
      simp only [hie, Bool.false_eq_true, if_false]
      exact List.mem_append_right _ (List.mem_cons_self _ _)
    · have haud' : (!(m.type == "audio")) = true := by simp [haud]
      have hcont : m.content ∈ ((acc.1.messages.filter (fun x =>
          x.session_id == s.id && visibleTo (s.user1_id == uid) x
            && mediaTypes.contains x.type)).filter
          (fun x => !(x.type == "audio"))).map (fun x => x.content) :=
        List.mem_map_of_mem _ (List.mem_filter.mpr ⟨hmm, haud'⟩)
      have hie := isEmpty_false_of_mem hcont
      refine ⟨⟨_, "image"⟩, ?_, hcont⟩
      simp only [logoutSessionStep]
      rw [if_pos hpeer]
      simp only [hie, Bool.false_eq_true, if_false]
      exact List.mem_append_left _
        (List.mem_append_right _ (List.mem_cons_self _ _))

/-- C2 (amended): when `handleUserLogout` runs for a participant of an
active conversation whose peer's logged-out flag is already set, the
conversation row is deleted together with all of its messages, reaction
rows stay free of orphans (via the schema's cascades), and Cloudinary
deletion is requested for exactly those media attachments of the
conversation that were still visible to the logging-out participant —
attachments already hidden from that participant are not requested. -/
theorem handleUserLogout_both_logged_out
    (st : Db) (uid : Nat) (s : SessionRow)
    (hmem : s ∈ st.chat_sessions) (hact : s.is_active = true)
    (hpart : (s.user1_id == uid || s.user2_id == uid) = true)
    (hpeer : otherLoggedOutFlag (s.user1_id == uid) s = true)
    (hnd : (st.chat_sessions.map (fun x => x.id)).Nodup)
    (hint : ∀ r ∈ st.message_reactions,
      ∃ m ∈ st.messages, m.id = r.message_id) :
    (∀ x ∈ (handleUserLogout st uid).1.chat_sessions, x.id ≠ s.id) ∧
    (∀ m ∈ (handleUserLogout st uid).1.messages, m.session_id ≠ s.id) ∧
    (∀ r ∈ (handleUserLogout st uid).1.message_reactions,
      ∃ m ∈ (handleUserLogout st uid).1.messages, m.id = r.message_id) ∧
    (∀ m ∈ st.messages, m.session_id = s.id →
      mediaTypes.contains m.type = true →
      visibleTo (s.user1_id == uid) m = true →
      ∃ req ∈ (handleUserLogout st uid).2, m.content ∈ req.publicIds) := by
  have hsmem : s ∈ st.chat_sessions.filter (fun x =>
      (x.user1_id == uid || x.user2_id == uid) && x.is_active) :=
    List.mem_filter.mpr ⟨hmem, by simp [hpart, hact]⟩
  obtain ⟨l1, l2, hsplit⟩ := List.append_of_mem hsmem
  have hndf : ((st.chat_sessions.filter (fun x =>
      (x.user1_id == uid || x.user2_id == uid) && x.is_active)).map
      (fun x => x.id)).Nodup :=
    List.Nodup.sublist ((List.filter_sublist _).map _) hnd
  rw [hsplit, List.map_append, List.map_cons, List.nodup_append] at hndf
  have ht1 : ∀ t ∈ l1, t.id ≠ s.id := by
    intro t ht h
    exact hndf.2.2 (List.mem_map_of_mem _ ht)
      (by rw [h]; exact List.mem_cons_self _ _)
  have ht2 : ∀ t ∈ l2, t.id ≠ s.id := by
    intro t ht h
    exact (List.nodup_cons.mp hndf.2.1).1 (h ▸ List.mem_map_of_mem _ ht)
  have hfold : handleUserLogout st uid =
      List.foldl (logoutSessionStep uid)
        (logoutSessionStep uid
          (List.foldl (logoutSessionStep uid) (st, []) l1) s) l2 := by
    simp only [handleUserLogout]
    rw [hsplit, List.foldl_append, List.foldl_cons]
  have hA : (∀ m ∈ st.messages, m.session_id = s.id →
      m ∈ (List.foldl (logoutSessionStep uid) (st, []) l1).1.messages) ∧
      s ∈ (List.foldl (logoutSessionStep uid) (st, []) l1).1.chat_sessions ∧
      (∀ r ∈ (List.foldl (logoutSessionStep uid)
          (st, []) l1).1.message_reactions,
        ∃ m ∈ (List.foldl (logoutSessionStep uid) (st, []) l1).1.messages,
          m.id = r.message_id) := by
    refine foldl_preserve (logoutSessionStep uid) (fun acc =>
      (∀ m ∈ st.messages, m.session_id = s.id → m ∈ acc.1.messages) ∧
      s ∈ acc.1.chat_sessions ∧
      (∀ r ∈ acc.1.message_reactions,
        ∃ m ∈ acc.1.messages, m.id = r.message_id)) l1 (st, [])
      ⟨fun m hm _ => hm, hmem, hint⟩ ?_
    intro b a ha hb
    refine ⟨?_, ?_, logoutStep_integrity uid b a hb.2.2⟩
    · intro m hm hsid
      exact (logoutStep_other uid b a s.id (ht1 a ha)).1 m
        (hb.1 m hm hsid) hsid
    · exact (logoutStep_other uid b a s.id (ht1 a ha)).2 s hb.2.1 rfl
  have hB := logoutStep_at_target uid
    (List.foldl (logoutSessionStep uid) (st, []) l1) s st.messages hpeer
    hA.2.1 hA.2.2 hA.1
  have hC : (fun acc : Db × List MediaRequest =>
      (∀ x ∈ acc.1.chat_sessions, x.id ≠ s.id) ∧
      (∀ m ∈ acc.1.messages, m.session_id ≠ s.id) ∧
      (∀ r ∈ acc.1.message_reactions,
        ∃ m ∈ acc.1.messages, m.id = r.message_id) ∧
      (∀ m ∈ st.messages, m.session_id = s.id →
        mediaTypes.contains m.type = true →
        visibleTo (s.user1_id == uid) m = true →
        ∃ req ∈ acc.2, m.content ∈ req.publicIds))
      (List.foldl (logoutSessionStep uid)
        (logoutSessionStep uid
          (List.foldl (logoutSessionStep uid) (st, []) l1) s) l2) := by
    refine foldl_preserve (logoutSessionStep uid) (fun acc =>
      (∀ x ∈ acc.1.chat_sessions, x.id ≠ s.id) ∧
      (∀ m ∈ acc.1.messages, m.session_id ≠ s.id) ∧
      (∀ r ∈ acc.1.message_reactions,
        ∃ m ∈ acc.1.messages, m.id = r.message_id) ∧
      (∀ m ∈ st.messages, m.session_id = s.id →
        mediaTypes.contains m.type = true →
        visibleTo (s.user1_id == uid) m = true →
        ∃ req ∈ acc.2, m.content ∈ req.publicIds)) l2
      (logoutSessionStep uid
        (List.foldl (logoutSessionStep uid) (st, []) l1) s) hB ?_
    intro b a ha hb
    refine ⟨?_, ?_, logoutStep_integrity uid b a hb.2.2.1, ?_⟩
    · intro x hx
      exact hb.1 x (logoutStep_sessions_sub uid b a x hx)
    · intro m' hm'
      obtain ⟨m, hm, hsid, -⟩ := logoutStep_messages_track uid b a m' hm'
      rw [hsid]
      exact hb.2.1 m hm
    · intro m hm hsid hmedia hvis
      obtain ⟨req, hreq, hcont⟩ := hb.2.2.2 m hm hsid hmedia hvis
      exact ⟨req, logoutStep_reqs_mono uid b a req hreq, hcont⟩
  rw [hfold]
  exact hC

/-- Concrete store for the C2 witness: user 1 already logged out of session
10; the media message "pidA" is still visible to user 2, with one reaction
attached. -/
def stC2b : Db :=
  { users := [⟨1, "a", "user", false, false⟩, ⟨2, "b", "user", false, true⟩],
    chat_sessions := [⟨10, 1, 2, 0, 86400000, true, false, true⟩],
    messages := [⟨100, 10, 1, "pidA", "image", 5, false, true, true, none, none⟩],
    message_reactions := [⟨300, 100, 2, "+1", 6⟩],
    rooms := [], room_members := [], room_messages := [], projects := [],
    project_members := [], project_messages := [], bans := [] }

/-- Witness for the amended C2 theorem on `stC2b`: user 2's logout deletes
session 10 with its messages and requests deletion of the media "pidA"
that was still visible to user 2. -/
theorem handleUserLogout_both_logged_out_witness :
    (∀ x ∈ (handleUserLogout stC2b 2).1.chat_sessions, x.id ≠ 10) ∧
    (∀ m ∈ (handleUserLogout stC2b 2).1.messages, m.session_id ≠ 10) ∧
    (∃ req ∈ (handleUserLogout stC2b 2).2, "pidA" ∈ req.publicIds) := by
  have h := handleUserLogout_both_logged_out stC2b 2
    ⟨10, 1, 2, 0, 86400000, true, false, true⟩ (by decide) rfl (by decide)
    (by decide) (by decide) (by decide)
  exact ⟨h.1, h.2.1, h.2.2.2
    ⟨100, 10, 1, "pidA", "image", 5, false, true, true, none, none⟩
    (by decide) rfl (by decide) (by decide)⟩

end Myifc
